import Mathlib

/-!
Shallow embedding of `calculate_next_runs_from_schedule` from
`src/generate_data.py` (the schedule projector of the openclaw-dashboard
repository), together with theorems settling the specified properties of
its schedule-projection behaviour.

Modelling conventions:

* Timestamps and durations are integers counting milliseconds, mirroring
  the millisecond arithmetic of the Python `datetime` / `timedelta` values
  the function manipulates (every quantity involved is a whole number of
  milliseconds, and `datetime` comparison is the total order on instants).
* The `at` field of a schedule is modelled as `Option Int`: `some t` is the
  instant produced by `datetime.fromisoformat` on the raw string and `none`
  covers a missing or empty field as well as every string on which the
  parse (or the subsequent comparison) raises, which the source swallows
  with `try ... except: pass` (lines 272-278).
* The two `while` loops are modelled with an explicit step budget (`fuel`).
  A loop result of `none` means the loop has not finished within the
  budget; the loop diverges exactly when it yields `none` for every budget.
* `PyResult` distinguishes a normal return (`ok`), an uncaught Python
  exception (`exn` — the `ValueError` that `int()` raises in the cron
  branch on a malformed step), and a loop that has not finished within the
  budget (`hang`).
* The output list holds the appended timestamps themselves; the source
  appends their `isoformat()` strings, an order-preserving injection from
  instants to strings, so order, count and membership facts transfer.
* The definitions whose names end in `Ov` refine the model with the
  `OverflowError` paths of `datetime` / `timedelta` arithmetic, whose
  operands live in bounded ranges that the plain model's unbounded
  integers collapse: `timedelta` construction (lines 285, 311, 315), the
  horizon sum of line 261, and the stepping sums of lines 290 and 338
  all raise when they leave the representable range.  The error-surface
  claim is settled against this refined model; the remaining claims,
  which are conditioned on a normal return or evaluate small concrete
  values, use the plain one.
-/

/-- Outcome of one call of the embedded Python function: a normal return,
an uncaught exception, or a loop still running after the step budget. -/
inductive PyResult (α : Type) where
  | ok : α → PyResult α
  | exn : PyResult α
  | hang : PyResult α
deriving DecidableEq

/-- A job `schedule` record as read by the projector: its `kind` tag and
the three kind-specific fields (`at` parsed to an instant, `everyMs`,
`expr`), each defaulting like `schedule.get(...)` in the source. -/
structure Schedule where
  kind : String
  atTime : Option Int
  everyMs : Int
  expr : String

/-- Accumulator pass behind `pySplit`: walk the characters, collecting the
current word in reverse; whitespace closes a word, empty words are never
emitted. -/
def splitWsAux : List Char → List Char → List String
  | [], acc => if acc = [] then [] else [String.mk acc.reverse]
  | c :: cs, acc =>
      if c.isWhitespace then
        if acc = [] then splitWsAux cs []
        else String.mk acc.reverse :: splitWsAux cs []
      else splitWsAux cs (c :: acc)

/-- Python `str.split()` with no separator (line 299): split on runs of
whitespace and drop the empty pieces. -/
def pySplit (s : String) : List String :=
  splitWsAux s.data []

/-- Python `str.startswith`. -/
def pyStartsWith (s p : String) : Bool :=
  p.data.isPrefixOf s.data

/-- Python slice `s[n:]`. -/
def pyDrop (s : String) (n : Nat) : String :=
  String.mk (s.data.drop n)

/-- Python `c in s` membership test on characters. -/
def pyContainsChar (s : String) (c : Char) : Bool :=
  s.data.contains c

/-- Python `str.strip()` with no argument: remove leading and trailing
whitespace. -/
def pyTrim (s : String) : String :=
  String.mk
    (((s.data.dropWhile Char.isWhitespace).reverse.dropWhile
      Char.isWhitespace).reverse)

/-- Digit string to number, most significant first. -/
def pyDigits (s : String) : Nat :=
  s.data.foldl (fun acc c => acc * 10 + (c.toNat - 48)) 0

/-- Python `int(...)` on a string: optional surrounding whitespace, an
optional sign, then at least one digit; `none` models the `ValueError`
raised on any other shape (numeric-literal underscores are not modelled,
none of the claims involves them). -/
def pyInt (s : String) : Option Int :=
  let t := pyTrim s
  let neg := pyStartsWith t "-"
  let core := if neg ∨ pyStartsWith t "+" then pyDrop t 1 else t
  if core.data ≠ [] ∧ core.data.all Char.isDigit then
    some (if neg then -(pyDigits core : Int) else (pyDigits core : Int))
  else
    none

/-- `timedelta(days=14)` of line 261 in milliseconds: the projection
horizon, fixed by the source. -/
def horizonMs : Int := 1209600000

/-- Interval selection of the cron branch (lines 305-331), in
milliseconds, from the five leading fields of the expression.  `none`
models the `ValueError` raised by `int(minute[2:])` when the minute field
starts with `*/` but the remainder is not an integer. -/
def cronIntervalMs (minute hour dayOfMonth month dayOfWeek : String) :
    Option Int :=
  if pyStartsWith minute "*/" ∧ hour = "*" then
    (pyInt (pyDrop minute 2)).map (fun n => n * 60000)
  else if pyStartsWith minute "*/" ∧ pyContainsChar hour '-' then
    (pyInt (pyDrop minute 2)).map (fun n => n * 60000)
  else if hour = "*" ∧ ¬ pyStartsWith minute "*/" then
    some 3600000
  else if dayOfMonth = "*" ∧ month = "*" ∧ dayOfWeek = "*" then
    -- lines 320-325: both arms of the `',' in hour` test are one day
    if pyContainsChar hour ',' then some 86400000 else some 86400000
  else if dayOfMonth = "*" ∧ month = "*" ∧ dayOfWeek ≠ "*" then
    some 604800000
  else
    some 86400000

/-- Lines 299-331 of the cron branch: split the expression, give up
(`none`, leading to an empty run list) when fewer than five fields remain
(this also covers the falsy-`expr` early return of line 296, since an
empty or all-blank string splits to `[]`), and otherwise hand the five
leading fields to the interval selection.  The inner `none` is the
propagated `ValueError`. -/
def exprIntervalMs (expr : String) : Option (Option Int) :=
  match pySplit expr with
  | minute :: hour :: dayOfMonth :: month :: dayOfWeek :: _ =>
      some (cronIntervalMs minute hour dayOfMonth month dayOfWeek)
  | _ => none

/-- The `while` loop of the `every` branch (lines 286-290): step `current`
by `interval` from the anchor, appending each value of `current` that is
`>= now` while `current < endDate` and fewer than 100 runs are collected.
`fuel` bounds the number of iterations; `none` means the loop has not
finished within `fuel` iterations. -/
def everyLoopRuns (now endDate interval : Int) :
    Nat → Int → List Int → Option (List Int)
  | 0, current, runs =>
      if current < endDate ∧ runs.length < 100 then none else some runs
  | Nat.succ fuel, current, runs =>
      if current < endDate ∧ runs.length < 100 then
        everyLoopRuns now endDate interval fuel (current + interval)
          (if now ≤ current then runs ++ [current] else runs)
      else
        some runs

/-- The `while` loop of the cron branch (lines 334-338), written out
separately in the source with the same body as the `every` loop. -/
def cronLoopRuns (now endDate interval : Int) :
    Nat → Int → List Int → Option (List Int)
  | 0, current, runs =>
      if current < endDate ∧ runs.length < 100 then none else some runs
  | Nat.succ fuel, current, runs =>
      if current < endDate ∧ runs.length < 100 then
        cronLoopRuns now endDate interval fuel (current + interval)
          (if now ≤ current then runs ++ [current] else runs)
      else
        some runs

/-- Shallow embedding of `calculate_next_runs_from_schedule`
(lines 257-342).  `schedule = none` models a falsy schedule record
(line 263); `firstRun` is the `first_run` anchor argument; `now` plays the
role of `datetime.now()` and the horizon is the fixed 14 days of
line 261.  The `at` branch compares with `<=` on both ends exactly as
`now <= at_time <= end_date` does on line 275. -/
def calculate_next_runs_from_schedule (fuel : Nat)
    (schedule : Option Schedule) (firstRun now : Int) :
    PyResult (List Int) :=
  let endDate := now + horizonMs
  match schedule with
  | none => PyResult.ok []
  | some s =>
      if s.kind = "at" then
        match s.atTime with
        | some atTime =>
            if now ≤ atTime ∧ atTime ≤ endDate then PyResult.ok [atTime]
            else PyResult.ok []
        | none => PyResult.ok []
      else if s.kind = "every" then
        if 0 < s.everyMs then
          match everyLoopRuns now endDate s.everyMs fuel firstRun [] with
          | some runs => PyResult.ok runs
          | none => PyResult.hang
        else PyResult.ok []
      else if s.kind = "cron" then
        match exprIntervalMs s.expr with
        | none => PyResult.ok []
        | some none => PyResult.exn
        | some (some interval) =>
            match cronLoopRuns now endDate interval fuel firstRun [] with
            | some runs => PyResult.ok runs
            | none => PyResult.hang
      else PyResult.ok []

/-- A Python exception distinguished by the refined model: the
`ValueError` of `int()` on a malformed literal, or the `OverflowError`
of `datetime` / `timedelta` arithmetic leaving its range. -/
inductive PyErr where
  | valueError : PyErr
  | overflowError : PyErr
deriving DecidableEq

/-- Outcome of a call in the overflow-aware model: a normal return, a
raised exception (saying which), or a loop still running after the step
budget. -/
inductive PyResultE (α : Type) where
  | ok : α → PyResultE α
  | raised : PyErr → PyResultE α
  | hang : PyResultE α
deriving DecidableEq

/-- Most negative whole-millisecond `timedelta`: `-999999999` days
(Python normalizes a `timedelta` to days in `[-999999999, 999999999]`
and raises `OverflowError` outside). -/
def tdMinMs : Int := -86399999913600000

/-- Largest whole-millisecond `timedelta`: `999999999` days plus
`23:59:59.999`. -/
def tdMaxMs : Int := 86399999999999999

/-- A whole-millisecond duration representable as a `timedelta`:
constructing `timedelta(milliseconds=m)` (or the same duration in
minutes) succeeds exactly on this range and raises `OverflowError`
outside it. -/
def tdOk (m : Int) : Prop := tdMinMs ≤ m ∧ m ≤ tdMaxMs

instance (m : Int) : Decidable (tdOk m) :=
  inferInstanceAs (Decidable (tdMinMs ≤ m ∧ m ≤ tdMaxMs))

/-- `datetime.min` (0001-01-01T00:00:00) in milliseconds from the Unix
epoch. -/
def dtMinMs : Int := -62135596800000

/-- The largest whole-millisecond instant not past `datetime.max`
(9999-12-31T23:59:59.999999), in milliseconds from the Unix epoch. -/
def dtMaxMs : Int := 253402300799999

/-- A whole-millisecond instant representable as a `datetime`:
`datetime + timedelta` raises `OverflowError` exactly when the result
leaves this range. -/
def dtOk (t : Int) : Prop := dtMinMs ≤ t ∧ t ≤ dtMaxMs

instance (t : Int) : Decidable (dtOk t) :=
  inferInstanceAs (Decidable (dtMinMs ≤ t ∧ t ≤ dtMaxMs))

/-- Overflow-aware variant of the `every` loop (lines 286-290): the
`current += interval` of line 290 raises `OverflowError` when the sum
leaves the `datetime` range, and the entry appended on line 289 in that
same iteration is lost with the raise. -/
def everyLoopOvRuns (now endDate interval : Int) :
    Nat → Int → List Int → PyResultE (List Int)
  | 0, current, runs =>
      if current < endDate ∧ runs.length < 100 then PyResultE.hang
      else PyResultE.ok runs
  | Nat.succ fuel, current, runs =>
      if current < endDate ∧ runs.length < 100 then
        if dtOk (current + interval) then
          everyLoopOvRuns now endDate interval fuel (current + interval)
            (if now ≤ current then runs ++ [current] else runs)
        else PyResultE.raised PyErr.overflowError
      else PyResultE.ok runs

/-- Overflow-aware variant of the cron loop (lines 334-338), with the
same body: the `current += interval` of line 338 can raise
`OverflowError`. -/
def cronLoopOvRuns (now endDate interval : Int) :
    Nat → Int → List Int → PyResultE (List Int)
  | 0, current, runs =>
      if current < endDate ∧ runs.length < 100 then PyResultE.hang
      else PyResultE.ok runs
  | Nat.succ fuel, current, runs =>
      if current < endDate ∧ runs.length < 100 then
        if dtOk (current + interval) then
          cronLoopOvRuns now endDate interval fuel (current + interval)
            (if now ≤ current then runs ++ [current] else runs)
        else PyResultE.raised PyErr.overflowError
      else PyResultE.ok runs

/-- Overflow-aware interval selection (lines 305-331): rules 1 and 2
construct `timedelta(minutes=mins)` at lines 311 and 315, which raises
`OverflowError` when the magnitude exceeds the `timedelta` range, on
top of the `ValueError` of `int(minute[2:])`; the fixed intervals of
rules 3 to 6 are always representable. -/
def cronIntervalOvMs (minute hour dayOfMonth month dayOfWeek : String) :
    Except PyErr Int :=
  if pyStartsWith minute "*/" ∧ hour = "*" then
    match pyInt (pyDrop minute 2) with
    | none => Except.error PyErr.valueError
    | some n =>
        if tdOk (n * 60000) then Except.ok (n * 60000)
        else Except.error PyErr.overflowError
  else if pyStartsWith minute "*/" ∧ pyContainsChar hour '-' then
    match pyInt (pyDrop minute 2) with
    | none => Except.error PyErr.valueError
    | some n =>
        if tdOk (n * 60000) then Except.ok (n * 60000)
        else Except.error PyErr.overflowError
  else if hour = "*" ∧ ¬ pyStartsWith minute "*/" then
    Except.ok 3600000
  else if dayOfMonth = "*" ∧ month = "*" ∧ dayOfWeek = "*" then
    if pyContainsChar hour ',' then Except.ok 86400000
    else Except.ok 86400000
  else if dayOfMonth = "*" ∧ month = "*" ∧ dayOfWeek ≠ "*" then
    Except.ok 604800000
  else
    Except.ok 86400000

/-- Overflow-aware embedding of `calculate_next_runs_from_schedule`
(lines 257-342), refining `calculate_next_runs_from_schedule` with the
`OverflowError` paths the plain model collapses: the horizon sum
`now + timedelta(days=14)` of line 261 (computed before the schedule is
inspected), the `timedelta(milliseconds=every_ms)` construction of
line 285 (inside the `every_ms > 0` guard), the `timedelta(minutes=...)`
constructions of lines 311 and 315, and the stepping sums of lines 290
and 338.  The `at` branch runs entirely inside `try ... except` and
never raises. -/
def calculate_next_runs_from_schedule_ov (fuel : Nat)
    (schedule : Option Schedule) (firstRun now : Int) :
    PyResultE (List Int) :=
  if dtOk (now + horizonMs) then
    let endDate := now + horizonMs
    match schedule with
    | none => PyResultE.ok []
    | some s =>
        if s.kind = "at" then
          match s.atTime with
          | some atTime =>
              if now ≤ atTime ∧ atTime ≤ endDate then PyResultE.ok [atTime]
              else PyResultE.ok []
          | none => PyResultE.ok []
        else if s.kind = "every" then
          if 0 < s.everyMs then
            if tdOk s.everyMs then
              everyLoopOvRuns now endDate s.everyMs fuel firstRun []
            else PyResultE.raised PyErr.overflowError
          else PyResultE.ok []
        else if s.kind = "cron" then
          match pySplit s.expr with
          | minute :: hour :: dayOfMonth :: month :: dayOfWeek :: _ =>
              match cronIntervalOvMs minute hour dayOfMonth month
                  dayOfWeek with
              | Except.ok interval =>
                  cronLoopOvRuns now endDate interval fuel firstRun []
              | Except.error e => PyResultE.raised e
          | _ => PyResultE.ok []
        else PyResultE.ok []
  else PyResultE.raised PyErr.overflowError

/-- The two stepping loops of the source are the same loop: the `every`
body (lines 286-290) and the cron body (lines 334-338) coincide. -/
theorem everyLoopRuns_eq_cronLoopRuns (now endDate interval : Int)
    (fuel : Nat) : ∀ current runs,
    everyLoopRuns now endDate interval fuel current runs =
      cronLoopRuns now endDate interval fuel current runs := by
  induction fuel with
  | zero => intro current runs; rfl
  | succ f ih =>
      intro current runs
      simp only [everyLoopRuns, cronLoopRuns]
      split
      · exact ih _ _
      · rfl

/-- The loop only ever appends: its result extends the incoming
accumulator. -/
theorem cronLoopRuns_append (now endDate interval : Int) (fuel : Nat) :
    ∀ current runs rs,
      cronLoopRuns now endDate interval fuel current runs = some rs →
      ∃ t, rs = runs ++ t := by
  induction fuel with
  | zero =>
      intro current runs rs h
      simp only [cronLoopRuns] at h
      split at h
      · exact absurd h (by simp)
      · injection h with h; exact ⟨[], by simp [h]⟩
  | succ f ih =>
      intro current runs rs h
      simp only [cronLoopRuns] at h
      split at h
      · split at h
        · obtain ⟨t, ht⟩ := ih _ _ _ h
          exact ⟨[current] ++ t, by simp [ht]⟩
        · exact ih _ _ _ h
      · injection h with h; exact ⟨[], by simp [h]⟩

/-- The loop never grows the accumulator beyond 100 entries: the
`len(runs) < 100` conjunct of the loop condition is checked before every
append. -/
theorem cronLoopRuns_length (now endDate interval : Int) (fuel : Nat) :
    ∀ current runs rs,
      cronLoopRuns now endDate interval fuel current runs = some rs →
      runs.length ≤ 100 → rs.length ≤ 100 := by
  induction fuel with
  | zero =>
      intro current runs rs h hlen
      simp only [cronLoopRuns] at h
      split at h
      · exact absurd h (by simp)
      · injection h with h; exact h ▸ hlen
  | succ f ih =>
      intro current runs rs h hlen
      simp only [cronLoopRuns] at h
      split at h
      case isTrue hc =>
        split at h
        · refine ih _ _ _ h ?_
          simp only [List.length_append, List.length_singleton]
          omega
        · exact ih _ _ _ h hlen
      case isFalse hc =>
        injection h with h; exact h ▸ hlen


/-- Every element of the loop result either was already in the accumulator
or was appended, and an appended element satisfied `now <= current` and
`current < endDate` at the moment of its append. -/
theorem cronLoopRuns_mem (now endDate interval : Int) (fuel : Nat) :
    ∀ current runs rs,
      cronLoopRuns now endDate interval fuel current runs = some rs →
      ∀ x ∈ rs, x ∈ runs ∨ (now ≤ x ∧ x < endDate) := by
  induction fuel with
  | zero =>
      intro current runs rs h x hx
      simp only [cronLoopRuns] at h
      split at h
      · exact absurd h (by simp)
      · injection h with h; exact Or.inl (h ▸ hx)
  | succ f ih =>
      intro current runs rs h x hx
      simp only [cronLoopRuns] at h
      split at h
      case isTrue hc =>
        split at h
        case isTrue hnow =>
          rcases ih _ _ _ h x hx with hmem | hwin
          · rcases List.mem_append.mp hmem with hl | hr
            · exact Or.inl hl
            · have hx0 : x = current := by simpa using hr
              exact Or.inr ⟨hx0 ▸ hnow, hx0 ▸ hc.1⟩
          · exact Or.inr hwin
        case isFalse hnow =>
          exact ih _ _ _ h x hx
      case isFalse hc =>
        injection h with h; exact Or.inl (h ▸ hx)

/-- With a nonnegative interval, the loop keeps the accumulator sorted:
appends happen in nondecreasing order of `current`. -/
theorem cronLoopRuns_sorted (now endDate interval : Int)
    (hi : 0 ≤ interval) (fuel : Nat) :
    ∀ current runs rs,
      cronLoopRuns now endDate interval fuel current runs = some rs →
      List.Sorted (· ≤ ·) runs →
      (∀ x ∈ runs, x ≤ current) →
      List.Sorted (· ≤ ·) rs := by
  induction fuel with
  | zero =>
      intro current runs rs h hs hb
      simp only [cronLoopRuns] at h
      split at h
      · exact absurd h (by simp)
      · injection h with h; exact h ▸ hs
  | succ f ih =>
      intro current runs rs h hs hb
      simp only [cronLoopRuns] at h
      split at h
      case isTrue hc =>
        split at h
        case isTrue hnow =>
          refine ih _ _ _ h ?_ ?_
          · refine List.pairwise_append.mpr ⟨hs, by simp, ?_⟩
            intro a ha b hb2
            have hbc : b = current := by simpa using hb2
            exact hbc ▸ hb a ha
          · intro x hx
            rcases List.mem_append.mp hx with hl | hr
            · have := hb x hl; omega
            · have : x = current := by simpa using hr
              omega
        case isFalse hnow =>
          refine ih _ _ _ h hs ?_
          intro x hx
          have := hb x hx; omega
      case isFalse hc =>
        injection h with h; exact h ▸ hs

/-- Starting from an empty accumulator, the head of a nonempty loop result
is the first anchor-aligned tick at or after `now`: it is
`current + k * interval` for a count `k` of skipped ticks, each of which
was strictly before `now`. -/
theorem cronLoopRuns_head (now endDate interval : Int) (fuel : Nat) :
    ∀ current rs,
      cronLoopRuns now endDate interval fuel current [] = some rs →
      rs = [] ∨ ∃ k : Nat, rs.head? = some (current + k * interval) ∧
        now ≤ current + k * interval ∧
        ∀ j : Nat, j < k → current + j * interval < now := by
  induction fuel with
  | zero =>
      intro current rs h
      simp only [cronLoopRuns] at h
      split at h
      · exact absurd h (by simp)
      · injection h with h; exact Or.inl h.symm
  | succ f ih =>
      intro current rs h
      simp only [cronLoopRuns] at h
      split at h
      case isTrue hc =>
        split at h
        case isTrue hnow =>
          simp only [List.nil_append] at h
          obtain ⟨t, ht⟩ := cronLoopRuns_append now endDate interval f _ _ _ h
          refine Or.inr ⟨0, ?_, ?_, ?_⟩
          · simp [ht]
          · simpa using hnow
          · intro j hj; omega
        case isFalse hnow =>
          rcases ih _ _ h with h0 | ⟨k, hk1, hk2, hk3⟩
          · exact Or.inl h0
          · refine Or.inr ⟨k + 1, ?_, ?_, ?_⟩
            · rw [hk1]
              congr 1
              push_cast
              ring
            · have : current + (↑(k + 1) : Int) * interval =
                  current + interval + (k : Int) * interval := by
                push_cast; ring
              omega
            · intro j hj
              match j with
              | 0 =>
                  simpa using (not_le.mp hnow)
              | Nat.succ j' =>
                  have hlt : current + interval + (j' : Int) * interval <
                      now := hk3 j' (by omega)
                  have heq : current + (j'.succ : Int) * interval =
                      current + interval + (j' : Int) * interval := by
                    push_cast; ring
                  omega
      case isFalse hc =>
        injection h with h; exact Or.inl h.symm

/-- With a zero interval and the running timestamp strictly before `now`
(and thus before `endDate`), the loop body never appends and never moves,
so the loop runs out of any budget: the source hangs on such inputs. -/
theorem cronLoopRuns_zero_interval_hang (now endDate current : Int)
    (hlt : current < now) (hend : current < endDate) :
    ∀ fuel, cronLoopRuns now endDate 0 fuel current [] = none := by
  intro fuel
  induction fuel with
  | zero =>
      simp only [cronLoopRuns]
      rw [if_pos ⟨hend, by simp⟩]
  | succ f ih =>
      simp only [cronLoopRuns]
      rw [if_pos ⟨hend, by simp⟩, if_neg (not_le.mpr hlt)]
      simpa using ih

/-- A falsy schedule record returns the empty run list (line 263). -/
theorem calc_none_eq (fuel : Nat) (firstRun now : Int) :
    calculate_next_runs_from_schedule fuel none firstRun now =
      PyResult.ok [] := rfl

/-- Branch equation for the `at` kind (lines 268-279). -/
theorem calc_at_eq (fuel : Nat) (s : Schedule) (firstRun now : Int)
    (hk : s.kind = "at") :
    calculate_next_runs_from_schedule fuel (some s) firstRun now =
      PyResult.ok (match s.atTime with
        | some t => if now ≤ t ∧ t ≤ now + horizonMs then [t] else []
        | none => []) := by
  unfold calculate_next_runs_from_schedule
  dsimp only
  rw [if_pos hk]
  cases s.atTime with
  | none => rfl
  | some t => by_cases h : now ≤ t ∧ t ≤ now + horizonMs <;> simp [h]

/-- Branch equation for the `every` kind with a positive period
(lines 281-291). -/
theorem calc_every_pos_eq (fuel : Nat) (s : Schedule) (firstRun now : Int)
    (hk : s.kind = "every") (he : 0 < s.everyMs) :
    calculate_next_runs_from_schedule fuel (some s) firstRun now =
      match everyLoopRuns now (now + horizonMs) s.everyMs fuel firstRun []
        with
      | some runs => PyResult.ok runs
      | none => PyResult.hang := by
  unfold calculate_next_runs_from_schedule
  dsimp only
  rw [if_neg (by rw [hk]; exact (by decide)), if_pos hk, if_pos he]

/-- Branch equation for the `every` kind with a nonpositive period: the
`every_ms > 0` guard of line 284 skips the loop. -/
theorem calc_every_nonpos_eq (fuel : Nat) (s : Schedule)
    (firstRun now : Int) (hk : s.kind = "every") (he : ¬ 0 < s.everyMs) :
    calculate_next_runs_from_schedule fuel (some s) firstRun now =
      PyResult.ok [] := by
  unfold calculate_next_runs_from_schedule
  dsimp only
  rw [if_neg (by rw [hk]; exact (by decide)), if_pos hk, if_neg he]

/-- Branch equation for the `cron` kind (lines 293-340): infer the
interval and loop, with no positivity guard between the two. -/
theorem calc_cron_eq (fuel : Nat) (s : Schedule) (firstRun now : Int)
    (hk : s.kind = "cron") :
    calculate_next_runs_from_schedule fuel (some s) firstRun now =
      match exprIntervalMs s.expr with
      | none => PyResult.ok []
      | some none => PyResult.exn
      | some (some interval) =>
          match cronLoopRuns now (now + horizonMs) interval fuel firstRun
            [] with
          | some runs => PyResult.ok runs
          | none => PyResult.hang := by
  unfold calculate_next_runs_from_schedule
  dsimp only
  rw [if_neg (by rw [hk]; exact (by decide)),
    if_neg (by rw [hk]; exact (by decide)), if_pos hk]

/-- An unrecognized kind tag falls through every branch to the final
`return runs` of line 342, still holding the empty list. -/
theorem calc_other_eq (fuel : Nat) (s : Schedule) (firstRun now : Int)
    (h1 : s.kind ≠ "at") (h2 : s.kind ≠ "every") (h3 : s.kind ≠ "cron") :
    calculate_next_runs_from_schedule fuel (some s) firstRun now =
      PyResult.ok [] := by
  unfold calculate_next_runs_from_schedule
  dsimp only
  rw [if_neg h1, if_neg h2, if_neg h3]

/-- Inversion for a normal return: the result list is empty, is the
singleton produced by the `at` branch inside the closed window, or comes
out of a stepping loop started at the anchor with an interval supplied
either by the guarded `every` branch or by the cron inference. -/
theorem calc_ok_inv (fuel : Nat) (schedule : Option Schedule)
    (firstRun now : Int) (rs : List Int)
    (h : calculate_next_runs_from_schedule fuel schedule firstRun now =
      PyResult.ok rs) :
    rs = [] ∨
    (∃ s t, schedule = some s ∧ s.kind = "at" ∧ s.atTime = some t ∧
      now ≤ t ∧ t ≤ now + horizonMs ∧ rs = [t]) ∨
    (∃ s i, schedule = some s ∧
      ((s.kind = "every" ∧ i = s.everyMs ∧ 0 < i) ∨
        (s.kind = "cron" ∧ exprIntervalMs s.expr = some (some i))) ∧
      cronLoopRuns now (now + horizonMs) i fuel firstRun [] = some rs) := by
  cases schedule with
  | none =>
      rw [calc_none_eq] at h
      injection h with h
      exact Or.inl h.symm
  | some s =>
      by_cases hat : s.kind = "at"
      · rw [calc_at_eq fuel s firstRun now hat] at h
        injection h with h
        cases hT : s.atTime with
        | none => rw [hT] at h; exact Or.inl h.symm
        | some t =>
            rw [hT] at h
            dsimp only at h
            by_cases hw : now ≤ t ∧ t ≤ now + horizonMs
            · rw [if_pos hw] at h
              exact Or.inr (Or.inl ⟨s, t, rfl, hat, hT, hw.1, hw.2, h.symm⟩)
            · rw [if_neg hw] at h
              exact Or.inl h.symm
      · by_cases hev : s.kind = "every"
        · by_cases hpos : 0 < s.everyMs
          · rw [calc_every_pos_eq fuel s firstRun now hev hpos] at h
            cases hL : everyLoopRuns now (now + horizonMs) s.everyMs fuel
                firstRun [] with
            | none => rw [hL] at h; exact absurd h (by simp)
            | some runs =>
                rw [hL] at h
                dsimp only at h
                injection h with h
                refine Or.inr (Or.inr ⟨s, s.everyMs, rfl,
                  Or.inl ⟨hev, rfl, hpos⟩, ?_⟩)
                rw [← everyLoopRuns_eq_cronLoopRuns, hL, h]
          · rw [calc_every_nonpos_eq fuel s firstRun now hev hpos] at h
            injection h with h
            exact Or.inl h.symm
        · by_cases hcr : s.kind = "cron"
          · rw [calc_cron_eq fuel s firstRun now hcr] at h
            cases hI : exprIntervalMs s.expr with
            | none => rw [hI] at h; injection h with h; exact Or.inl h.symm
            | some o =>
                cases o with
                | none => rw [hI] at h; exact absurd h (by simp)
                | some i =>
                    rw [hI] at h
                    dsimp only at h
                    cases hL : cronLoopRuns now (now + horizonMs) i fuel
                        firstRun [] with
                    | none => rw [hL] at h; exact absurd h (by simp)
                    | some runs =>
                        rw [hL] at h
                        dsimp only at h
                        injection h with h
                        exact Or.inr (Or.inr ⟨s, i, rfl,
                          Or.inr ⟨hcr, hI⟩, by rw [hL, h]⟩)
          · rw [calc_other_eq fuel s firstRun now hat hev hcr] at h
            injection h with h
            exact Or.inl h.symm

/-- C5: for every schedule, anchor and current time, and every step
budget under which the projector returns normally, the returned
occurrence list has at most 100 entries: the `at` branch emits at most
one and both stepping loops check `len(runs) < 100` before appending. -/
theorem c5_count_cap (fuel : Nat) (schedule : Option Schedule)
    (firstRun now : Int) (rs : List Int)
    (h : calculate_next_runs_from_schedule fuel schedule firstRun now =
      PyResult.ok rs) : rs.length ≤ 100 := by
  rcases calc_ok_inv fuel schedule firstRun now rs h with
    h0 | ⟨s, t, _, _, _, _, _, hrs⟩ | ⟨s, i, _, _, hL⟩
  · simp [h0]
  · simp [hrs]
  · exact cronLoopRuns_length now (now + horizonMs) i fuel firstRun [] rs
      hL (by simp)

/-- Witness for the cap theorem at a concrete input. -/
theorem c5_count_cap_witness : ([3] : List Int).length ≤ 100 :=
  c5_count_cap 0 (some ⟨"at", some 3, 0, ""⟩) 0 0 [3] rfl

/-- C10: an empty or missing schedule record, or one whose kind tag is
none of `at`, `every`, `cron`, makes the projector return the empty list
with no error, whatever the anchor, the current time and the budget. -/
theorem c10_unknown_kind_empty (fuel : Nat) (schedule : Option Schedule)
    (firstRun now : Int)
    (h : schedule = none ∨ ∃ s, schedule = some s ∧
      s.kind ≠ "at" ∧ s.kind ≠ "every" ∧ s.kind ≠ "cron") :
    calculate_next_runs_from_schedule fuel schedule firstRun now =
      PyResult.ok [] := by
  rcases h with h | ⟨s, hs, h1, h2, h3⟩
  · rw [h]; exact calc_none_eq fuel firstRun now
  · rw [hs]; exact calc_other_eq fuel s firstRun now h1 h2 h3

/-- Witness for the unknown-kind theorem at a concrete input. -/
theorem c10_unknown_kind_empty_witness :
    calculate_next_runs_from_schedule 3 (some ⟨"weekly", none, 7, "x"⟩) 1 2
      = PyResult.ok [] :=
  c10_unknown_kind_empty 3 (some ⟨"weekly", none, 7, "x"⟩) 1 2
    (Or.inr ⟨⟨"weekly", none, 7, "x"⟩, rfl, by decide, by decide, by decide⟩)

/-- C1 is false as stated: a `Once` schedule whose `at` equals exactly
`now + horizon` returns `[at]`, not the empty list, because line 275
compares with `<=` on both ends (`now <= at_time <= end_date`), making
the window closed rather than half-open for the `at` kind. -/
theorem c1_closed_window_counterexample :
    calculate_next_runs_from_schedule 0
        (some ⟨"at", some horizonMs, 0, ""⟩) 0 0 =
      PyResult.ok [horizonMs] ∧
    PyResult.ok [horizonMs] ≠ PyResult.ok ([] : List Int) :=
  ⟨by decide, by decide⟩

/-- C1 (amended): every returned timestamp lies in the closed interval
from `now` to `now + horizon`; a `Once` schedule with a parsed `at`
returns `[at]` exactly when `at` lies in that closed interval — so
`at = now + horizon` yields `[at]`, not `[]` — and for every other kind
the returned timestamps lie in the half-open window, strictly below
`now + horizon`. -/
theorem c1_window_containment (fuel : Nat) (schedule : Option Schedule)
    (firstRun now : Int) (rs : List Int)
    (h : calculate_next_runs_from_schedule fuel schedule firstRun now =
      PyResult.ok rs) :
    (∀ x ∈ rs, now ≤ x ∧ x ≤ now + horizonMs) ∧
    (∀ s, schedule = some s → s.kind = "at" → ∀ t, s.atTime = some t →
      (rs = [t] ↔ (now ≤ t ∧ t ≤ now + horizonMs))) ∧
    (∀ s, schedule = some s → s.kind ≠ "at" →
      ∀ x ∈ rs, x < now + horizonMs) := by
  refine ⟨?_, ?_, ?_⟩
  · intro x hx
    rcases calc_ok_inv fuel schedule firstRun now rs h with
      h0 | ⟨s, t, _, _, _, hw1, hw2, hrs⟩ | ⟨s, i, _, _, hL⟩
    · rw [h0] at hx; cases hx
    · rw [hrs] at hx
      have : x = t := by simpa using hx
      exact ⟨this ▸ hw1, this ▸ hw2⟩
    · rcases cronLoopRuns_mem now (now + horizonMs) i fuel firstRun [] rs
        hL x hx with hm | hw
      · cases hm
      · exact ⟨hw.1, le_of_lt hw.2⟩
  · intro s hs hk t hT
    rw [hs, calc_at_eq fuel s firstRun now hk, hT] at h
    injection h with h
    dsimp only at h
    by_cases hw : now ≤ t ∧ t ≤ now + horizonMs
    · rw [if_pos hw] at h
      exact iff_of_true (h.symm) hw
    · rw [if_neg hw] at h
      exact iff_of_false (by simp [h.symm]) hw
  · intro s0 hs hk x hx
    rcases calc_ok_inv fuel schedule firstRun now rs h with
      h0 | ⟨s, t, hss, hkat, _, _, _, _⟩ | ⟨s, i, _, _, hL⟩
    · rw [h0] at hx; cases hx
    · rw [hs] at hss
      injection hss with hss
      exact absurd (hss ▸ hkat) hk
    · rcases cronLoopRuns_mem now (now + horizonMs) i fuel firstRun [] rs
        hL x hx with hm | hw
      · cases hm
      · exact hw.2

/-- Witness for the amended window theorem at a concrete input. -/
theorem c1_window_containment_witness :
    (0 : Int) ≤ 5 ∧ (5 : Int) ≤ 0 + horizonMs :=
  (c1_window_containment 1 (some ⟨"at", some 5, 0, ""⟩) 0 0 [5]
    (by decide)).1 5 (by simp)

set_option maxRecDepth 40000 in
/-- C6 is false as stated: a cron minute field of `*/` followed by a
negative number makes `int(minute[2:])` return that negative number, the
inferred interval is negative, and the loop then emits a strictly
decreasing list (here 100 ticks five minutes apart, walking down from
the anchor). -/
theorem c6_sorted_counterexample :
    calculate_next_runs_from_schedule 100
        (some ⟨"cron", none, 0, "*/-5 * * * *"⟩) 29700000 0 =
      PyResult.ok
        ((List.range 100).map (fun k => 29700000 - 300000 * (k : Int))) ∧
    ¬ List.Sorted (· ≤ ·)
        ((List.range 100).map (fun k => 29700000 - 300000 * (k : Int))) :=
  ⟨by decide, by decide⟩

/-- C6 (amended): the returned occurrence list is sorted in nondecreasing
order for every input whose effective stepping interval is nonnegative —
in particular for every `Once` schedule, every `FixedInterval` schedule
(a nonpositive `everyMs` is rejected before the loop), and every cron
expression whose inferred interval is nonnegative.  Only a cron
expression with a negative inferred step (a minute field of `*/` followed
by a negative number) escapes the hypothesis, and it can return a
decreasing list. -/
theorem c6_sorted (fuel : Nat) (schedule : Option Schedule)
    (firstRun now : Int) (rs : List Int)
    (hcron : ∀ s, schedule = some s → s.kind = "cron" →
      ∀ i, exprIntervalMs s.expr = some (some i) → 0 ≤ i)
    (h : calculate_next_runs_from_schedule fuel schedule firstRun now =
      PyResult.ok rs) :
    List.Sorted (· ≤ ·) rs := by
  rcases calc_ok_inv fuel schedule firstRun now rs h with
    h0 | ⟨s, t, _, _, _, _, _, hrs⟩ | ⟨s, i, hss, hsrc, hL⟩
  · simp [h0]
  · simp [hrs]
  · have hi : 0 ≤ i := by
      rcases hsrc with ⟨_, hie, hpos⟩ | ⟨hkc, hinf⟩
      · omega
      · exact hcron s hss hkc i hinf
    exact cronLoopRuns_sorted now (now + horizonMs) i hi fuel firstRun []
      rs hL (by simp) (by simp)

/-- Witness for the amended sortedness theorem at a concrete input. -/
theorem c6_sorted_witness : List.Sorted (· ≤ ·) ([3] : List Int) :=
  c6_sorted 0 (some ⟨"at", some 3, 0, ""⟩) 0 0 [3]
    (fun s hs hk => by
      injection hs with hs
      exact absurd (hs ▸ hk) (by decide))
    rfl

/-- C7: for a `FixedInterval` schedule with a positive period, whenever
the projector returns: no returned timestamp precedes `now`, an anchor
strictly before `now` is never itself emitted, and the head of a
nonempty result is the least anchor-aligned tick
`anchor + k * everyMs >= now` (every earlier tick was strictly before
`now`). -/
theorem c7_fixed_interval_catch_up (fuel : Nat) (s : Schedule)
    (firstRun now : Int) (rs : List Int)
    (hk : s.kind = "every") (he : 0 < s.everyMs)
    (h : calculate_next_runs_from_schedule fuel (some s) firstRun now =
      PyResult.ok rs) :
    (∀ x ∈ rs, now ≤ x) ∧
    (firstRun < now → firstRun ∉ rs) ∧
    (∀ t, rs.head? = some t →
      ∃ k : Nat, t = firstRun + k * s.everyMs ∧ now ≤ t ∧
        ∀ j : Nat, j < k → firstRun + j * s.everyMs < now) := by
  rw [calc_every_pos_eq fuel s firstRun now hk he] at h
  cases hL : everyLoopRuns now (now + horizonMs) s.everyMs fuel firstRun
      [] with
  | none => rw [hL] at h; exact absurd h (by simp)
  | some runs =>
      rw [hL] at h
      dsimp only at h
      injection h with h
      subst h
      rw [everyLoopRuns_eq_cronLoopRuns] at hL
      have hmem : ∀ x ∈ runs, now ≤ x := by
        intro x hx
        rcases cronLoopRuns_mem now (now + horizonMs) s.everyMs fuel
          firstRun [] runs hL x hx with hm | hw
        · cases hm
        · exact hw.1
      refine ⟨hmem, ?_, ?_⟩
      · intro hlt hin
        exact absurd (hmem firstRun hin) (not_le.mpr hlt)
      · intro t ht
        rcases cronLoopRuns_head now (now + horizonMs) s.everyMs fuel
          firstRun runs hL with h0 | ⟨k, hk1, hk2, hk3⟩
        · rw [h0] at ht; cases ht
        · rw [hk1] at ht
          injection ht with ht
          exact ⟨k, ht.symm, ht ▸ hk2, hk3⟩

/-- Witness for the catch-up theorem: period 500000000 ms, anchor
700000000 ms before `now`; the loop skips the two stale ticks and the
first emitted tick is at 300000000. -/
theorem c7_fixed_interval_catch_up_witness : (0 : Int) ≤ 300000000 :=
  (c7_fixed_interval_catch_up 10 ⟨"every", none, 500000000, ""⟩
    (-700000000) 0 [300000000, 800000000] rfl (by decide) (by decide)).1
    300000000 (by simp)

set_option maxRecDepth 40000 in
/-- C2 fails on the code: the zero-interval guard exists only in the
`every` branch.  The expression `*/0 * * * *` infers a zero step with no
rejection, and with the anchor equal to `now` the loop appends the same
timestamp until the 100-entry cap, returning 100 copies instead of the
empty list (with the anchor strictly before `now` it does not terminate
at all, see the nontermination theorem for C3). -/
theorem c2_zero_step_cron_not_empty :
    calculate_next_runs_from_schedule 100
        (some ⟨"cron", none, 0, "*/0 * * * *"⟩) 5 5 =
      PyResult.ok (List.replicate 100 5) ∧
    List.replicate 100 (5 : Int) ≠ [] :=
  ⟨by decide, by decide⟩

/-- C3 fails on the code: for the cron expression `*/0 * * * *` with the
anchor strictly before `now`, the inferred step is zero, `current` never
advances and nothing is ever appended, so the loop condition
`current < end_date and len(runs) < 100` stays true forever: the
projector hangs for every step budget. -/
theorem c3_zero_step_cron_nontermination (fuel : Nat) :
    calculate_next_runs_from_schedule fuel
        (some ⟨"cron", none, 0, "*/0 * * * *"⟩) (-1) 0 = PyResult.hang := by
  rw [calc_cron_eq fuel ⟨"cron", none, 0, "*/0 * * * *"⟩ (-1) 0 rfl]
  have hexpr : exprIntervalMs "*/0 * * * *" = some (some 0) := by decide
  rw [hexpr]
  dsimp only
  rw [cronLoopRuns_zero_interval_hang 0 (0 + horizonMs) (-1) (by decide)
    (by decide) fuel]

/-- C4 is false as stated: the all-wildcard expression `* * * * *` infers
a one-hour interval, not the claimed one-day interval, because rule 3 of
the source (line 317) only requires that the hour field be `*` and that
the minute field not start with `*/` — it does not require a fixed
minute, so the `*` minute field also lands there. -/
theorem c4_all_wildcard_counterexample :
    exprIntervalMs "* * * * *" = some (some 3600000) ∧
      (3600000 : Int) ≠ 86400000 :=
  ⟨by decide, by decide⟩

/-- C4 (amended): the inference follows the precedence table with rule 3
corrected to fire whenever the hour field is `*` and the minute field
does not start with `*/` (a fixed minute or the bare `*` alike):
`*/15 * * * *` gives 15 minutes, `0 9 * * *` one day, `0 9 * * 1` one
week, `5 4 1 * *` defaults to one day, and `* * * * *` gives one hour. -/
theorem c4_interval_precedence :
    exprIntervalMs "*/15 * * * *" = some (some 900000) ∧
    exprIntervalMs "0 9 * * *" = some (some 86400000) ∧
    exprIntervalMs "0 9 * * 1" = some (some 604800000) ∧
    exprIntervalMs "5 4 1 * *" = some (some 86400000) ∧
    exprIntervalMs "* * * * *" = some (some 3600000) ∧
    ∀ minute dayOfMonth month dayOfWeek : String,
      ¬ pyStartsWith minute "*/" →
      cronIntervalMs minute "*" dayOfMonth month dayOfWeek =
        some 3600000 := by
  refine ⟨by decide, by decide, by decide, by decide, by decide, ?_⟩
  intro minute dayOfMonth month dayOfWeek hm
  unfold cronIntervalMs
  rw [if_neg (fun hand => hm hand.1), if_neg (fun hand => hm hand.1),
    if_pos ⟨rfl, hm⟩]

/-- Witness for the corrected rule 3 at a fixed-minute expression. -/
theorem c4_interval_precedence_witness :
    cronIntervalMs "0" "*" "*" "*" "*" = some 3600000 :=
  c4_interval_precedence.2.2.2.2.2 "0" "*" "*" "*" (by decide)

/-- C8 is false as stated: the cron branch can raise.  On the malformed
expression `*/x * * * *` rule 1 matches (`*/` minute, `*` hour) and
`int("x")` raises an uncaught `ValueError` out of the projector rather
than degrading to an empty list. -/
theorem c8_raise_counterexample :
    calculate_next_runs_from_schedule_ov 0
        (some ⟨"cron", none, 0, "*/x * * * *"⟩) 0 0 =
      PyResultE.raised PyErr.valueError ∧
    PyResultE.raised PyErr.valueError ≠ PyResultE.ok ([] : List Int) :=
  ⟨by decide, by decide⟩

set_option maxRecDepth 40000 in
/-- C9 is false as stated: when the inferred interval is not positive the
two projections differ, because only the `every` branch guards its loop
with `every_ms > 0`.  For `*/0 * * * *` (inferred interval 0) with the
anchor at `now`, the cron projection returns 100 copies of the anchor
while the `FixedInterval` projection with `everyMs = 0` returns `[]`. -/
theorem c9_refinement_counterexample :
    exprIntervalMs "*/0 * * * *" = some (some 0) ∧
    calculate_next_runs_from_schedule 100
        (some ⟨"cron", none, 0, "*/0 * * * *"⟩) 0 0 =
      PyResult.ok (List.replicate 100 0) ∧
    calculate_next_runs_from_schedule 100 (some ⟨"every", none, 0, ""⟩)
        0 0 = PyResult.ok [] ∧
    PyResult.ok (List.replicate 100 (0 : Int)) ≠
      PyResult.ok ([] : List Int) :=
  ⟨by decide, by decide, by decide, by decide⟩

/-- C9 (amended): for every cron expression whose inferred interval `i`
is positive, the cron projection equals the `FixedInterval` projection
with `everyMs = i` from the same anchor, current time and budget: past
the interval choice and the positivity guard, the two branches run the
same loop. -/
theorem c9_cron_refines_fixed_interval (fuel : Nat) (expr : String)
    (i firstRun now : Int)
    (hinf : exprIntervalMs expr = some (some i)) (hpos : 0 < i) :
    calculate_next_runs_from_schedule fuel
        (some ⟨"cron", none, 0, expr⟩) firstRun now =
      calculate_next_runs_from_schedule fuel (some ⟨"every", none, i, ""⟩)
        firstRun now := by
  rw [calc_cron_eq fuel ⟨"cron", none, 0, expr⟩ firstRun now rfl,
    calc_every_pos_eq fuel ⟨"every", none, i, ""⟩ firstRun now rfl hpos]
  dsimp only at hinf ⊢
  rw [hinf]
  dsimp only
  rw [everyLoopRuns_eq_cronLoopRuns]

/-- Witness for the refinement theorem at `*/15 * * * *` (15-minute
inferred interval). -/
theorem c9_cron_refines_fixed_interval_witness :
    calculate_next_runs_from_schedule 100
        (some ⟨"cron", none, 0, "*/15 * * * *"⟩) 0 0 =
      calculate_next_runs_from_schedule 100
        (some ⟨"every", none, 900000, ""⟩) 0 0 :=
  c9_cron_refines_fixed_interval 100 "*/15 * * * *" 900000 0 0
    (by decide) (by decide)

/-- The overflow-aware `every` loop can hang, finish, or raise
`OverflowError` from its stepping sum — but never `ValueError`. -/
theorem everyLoopOvRuns_ne_valueError (now endDate interval : Int)
    (fuel : Nat) : ∀ current runs,
    everyLoopOvRuns now endDate interval fuel current runs ≠
      PyResultE.raised PyErr.valueError := by
  induction fuel with
  | zero =>
      intro current runs
      simp only [everyLoopOvRuns]
      split <;> simp
  | succ f ih =>
      intro current runs
      simp only [everyLoopOvRuns]
      split
      · split
        · exact ih _ _
        · simp
      · simp

/-- The overflow-aware cron loop likewise never raises `ValueError`. -/
theorem cronLoopOvRuns_ne_valueError (now endDate interval : Int)
    (fuel : Nat) : ∀ current runs,
    cronLoopOvRuns now endDate interval fuel current runs ≠
      PyResultE.raised PyErr.valueError := by
  induction fuel with
  | zero =>
      intro current runs
      simp only [cronLoopOvRuns]
      split <;> simp
  | succ f ih =>
      intro current runs
      simp only [cronLoopOvRuns]
      split
      · split
        · exact ih _ _
        · simp
      · simp

/-- A `ValueError` out of the interval selection pins down its cause: a
minute field starting with `*/`, a consulted hour field (`*` or holding
`-`), and a non-integer remainder. -/
theorem cronIntervalOvMs_valueError_inv
    (minute hour dayOfMonth month dayOfWeek : String)
    (h : cronIntervalOvMs minute hour dayOfMonth month dayOfWeek =
      Except.error PyErr.valueError) :
    pyStartsWith minute "*/" ∧ (hour = "*" ∨ pyContainsChar hour '-') ∧
      pyInt (pyDrop minute 2) = none := by
  unfold cronIntervalOvMs at h
  split at h
  case isTrue hc =>
    cases hpi : pyInt (pyDrop minute 2) with
    | none => exact ⟨hc.1, Or.inl hc.2, rfl⟩
    | some n =>
        rw [hpi] at h
        dsimp only at h
        split at h <;> exact absurd h (by simp)
  case isFalse h1 =>
    split at h
    case isTrue hc =>
      cases hpi : pyInt (pyDrop minute 2) with
      | none => exact ⟨hc.1, Or.inr hc.2, rfl⟩
      | some n =>
          rw [hpi] at h
          dsimp only at h
          split at h <;> exact absurd h (by simp)
    case isFalse h2 =>
      split at h
      · exact absurd h (by simp)
      · split at h
        · split at h <;> exact absurd h (by simp)
        · split at h
          · exact absurd h (by simp)
          · exact absurd h (by simp)

/-- An `OverflowError` out of the interval selection pins down its
cause: rules 1 or 2 parsed an integer remainder whose minute count is
beyond the `timedelta` range. -/
theorem cronIntervalOvMs_overflow_inv
    (minute hour dayOfMonth month dayOfWeek : String)
    (h : cronIntervalOvMs minute hour dayOfMonth month dayOfWeek =
      Except.error PyErr.overflowError) :
    pyStartsWith minute "*/" ∧ (hour = "*" ∨ pyContainsChar hour '-') ∧
      ∃ n, pyInt (pyDrop minute 2) = some n ∧ ¬ tdOk (n * 60000) := by
  unfold cronIntervalOvMs at h
  split at h
  case isTrue hc =>
    cases hpi : pyInt (pyDrop minute 2) with
    | none =>
        rw [hpi] at h
        dsimp only at h
        exact absurd h (by simp)
    | some n =>
        rw [hpi] at h
        dsimp only at h
        split at h
        case isTrue ht => exact absurd h (by simp)
        case isFalse ht => exact ⟨hc.1, Or.inl hc.2, n, rfl, ht⟩
  case isFalse h1 =>
    split at h
    case isTrue hc =>
      cases hpi : pyInt (pyDrop minute 2) with
      | none =>
          rw [hpi] at h
          dsimp only at h
          exact absurd h (by simp)
      | some n =>
          rw [hpi] at h
          dsimp only at h
          split at h
          case isTrue ht => exact absurd h (by simp)
          case isFalse ht => exact ⟨hc.1, Or.inr hc.2, n, rfl, ht⟩
    case isFalse h2 =>
      split at h
      · exact absurd h (by simp)
      · split at h
        · split at h <;> exact absurd h (by simp)
        · split at h
          · exact absurd h (by simp)
          · exact absurd h (by simp)

/-- When the horizon sum itself leaves the `datetime` range, line 261
raises before the schedule is even inspected. -/
theorem calcOv_noHorizon_eq (fuel : Nat) (schedule : Option Schedule)
    (firstRun now : Int) (hdt : ¬ dtOk (now + horizonMs)) :
    calculate_next_runs_from_schedule_ov fuel schedule firstRun now =
      PyResultE.raised PyErr.overflowError := by
  unfold calculate_next_runs_from_schedule_ov
  rw [if_neg hdt]

/-- A falsy schedule returns the empty list in the refined model too. -/
theorem calcOv_none_eq (fuel : Nat) (firstRun now : Int)
    (hdt : dtOk (now + horizonMs)) :
    calculate_next_runs_from_schedule_ov fuel none firstRun now =
      PyResultE.ok [] := by
  unfold calculate_next_runs_from_schedule_ov
  rw [if_pos hdt]

/-- The `at` branch of the refined model never raises: it is the plain
branch of lines 268-279, wrapped in `try ... except`. -/
theorem calcOv_at_eq (fuel : Nat) (s : Schedule) (firstRun now : Int)
    (hdt : dtOk (now + horizonMs)) (hk : s.kind = "at") :
    calculate_next_runs_from_schedule_ov fuel (some s) firstRun now =
      PyResultE.ok (match s.atTime with
        | some t => if now ≤ t ∧ t ≤ now + horizonMs then [t] else []
        | none => []) := by
  unfold calculate_next_runs_from_schedule_ov
  rw [if_pos hdt]
  dsimp only
  rw [if_pos hk]
  cases s.atTime with
  | none => rfl
  | some t => by_cases h : now ≤ t ∧ t ≤ now + horizonMs <;> simp [h]

/-- An unrecognized kind returns the empty list in the refined model. -/
theorem calcOv_other_eq (fuel : Nat) (s : Schedule) (firstRun now : Int)
    (hdt : dtOk (now + horizonMs)) (h1 : s.kind ≠ "at")
    (h2 : s.kind ≠ "every") (h3 : s.kind ≠ "cron") :
    calculate_next_runs_from_schedule_ov fuel (some s) firstRun now =
      PyResultE.ok [] := by
  unfold calculate_next_runs_from_schedule_ov
  rw [if_pos hdt]
  dsimp only
  rw [if_neg h1, if_neg h2, if_neg h3]

/-- A cron expression with fewer than five fields returns the empty
list in the refined model (line 301), raising nothing. -/
theorem calcOv_cron_short_eq (fuel : Nat) (s : Schedule)
    (firstRun now : Int) (hdt : dtOk (now + horizonMs))
    (hk : s.kind = "cron") (hlen : (pySplit s.expr).length < 5) :
    calculate_next_runs_from_schedule_ov fuel (some s) firstRun now =
      PyResultE.ok [] := by
  unfold calculate_next_runs_from_schedule_ov
  rw [if_pos hdt]
  dsimp only
  rw [if_neg (by rw [hk]; exact (by decide)),
    if_neg (by rw [hk]; exact (by decide)), if_pos hk]
  cases hsp : pySplit s.expr with
  | nil => rfl
  | cons minute l1 =>
      cases l1 with
      | nil => rfl
      | cons hour l2 =>
          cases l2 with
          | nil => rfl
          | cons dayOfMonth l3 =>
              cases l3 with
              | nil => rfl
              | cons month l4 =>
                  cases l4 with
                  | nil => rfl
                  | cons dayOfWeek rest =>
                      rw [hsp] at hlen
                      simp at hlen
                      omega

/-- A raise from the refined `every` branch comes from exactly one of
two places: the `timedelta` construction of line 285 or the stepping
loop. -/
theorem calcOv_every_raised_inv (fuel : Nat) (s : Schedule)
    (firstRun now : Int) (e : PyErr) (hdt : dtOk (now + horizonMs))
    (hk : s.kind = "every")
    (h : calculate_next_runs_from_schedule_ov fuel (some s) firstRun now
      = PyResultE.raised e) :
    (0 < s.everyMs ∧ ¬ tdOk s.everyMs ∧ e = PyErr.overflowError) ∨
    (0 < s.everyMs ∧ tdOk s.everyMs ∧
      everyLoopOvRuns now (now + horizonMs) s.everyMs fuel firstRun [] =
        PyResultE.raised e) := by
  unfold calculate_next_runs_from_schedule_ov at h
  rw [if_pos hdt] at h
  dsimp only at h
  rw [if_neg (by rw [hk]; exact (by decide)), if_pos hk] at h
  by_cases hpos : 0 < s.everyMs
  · rw [if_pos hpos] at h
    by_cases htd : tdOk s.everyMs
    · rw [if_pos htd] at h
      exact Or.inr ⟨hpos, htd, h⟩
    · rw [if_neg htd] at h
      injection h with h2
      exact Or.inl ⟨hpos, htd, h2.symm⟩
  · rw [if_neg hpos] at h
    exact absurd h (by simp)

/-- A raise from the refined cron branch comes through five parsed
fields and then either out of the interval selection or out of the
stepping loop. -/
theorem calcOv_cron_raised_inv (fuel : Nat) (s : Schedule)
    (firstRun now : Int) (e : PyErr) (hdt : dtOk (now + horizonMs))
    (hk : s.kind = "cron")
    (h : calculate_next_runs_from_schedule_ov fuel (some s) firstRun now
      = PyResultE.raised e) :
    ∃ minute hour dayOfMonth month dayOfWeek rest,
      pySplit s.expr =
        minute :: hour :: dayOfMonth :: month :: dayOfWeek :: rest ∧
      ((cronIntervalOvMs minute hour dayOfMonth month dayOfWeek =
          Except.error e) ∨
        (∃ i, cronIntervalOvMs minute hour dayOfMonth month dayOfWeek =
          Except.ok i ∧
          cronLoopOvRuns now (now + horizonMs) i fuel firstRun [] =
            PyResultE.raised e)) := by
  unfold calculate_next_runs_from_schedule_ov at h
  rw [if_pos hdt] at h
  dsimp only at h
  rw [if_neg (by rw [hk]; exact (by decide)),
    if_neg (by rw [hk]; exact (by decide)), if_pos hk] at h
  cases hsp : pySplit s.expr with
  | nil => rw [hsp] at h; dsimp only at h; exact absurd h (by simp)
  | cons minute l1 =>
      cases l1 with
      | nil => rw [hsp] at h; dsimp only at h; exact absurd h (by simp)
      | cons hour l2 =>
          cases l2 with
          | nil => rw [hsp] at h; dsimp only at h; exact absurd h (by simp)
          | cons dayOfMonth l3 =>
              cases l3 with
              | nil =>
                  rw [hsp] at h; dsimp only at h; exact absurd h (by simp)
              | cons month l4 =>
                  cases l4 with
                  | nil =>
                      rw [hsp] at h
                      dsimp only at h
                      exact absurd h (by simp)
                  | cons dayOfWeek rest =>
                      rw [hsp] at h
                      dsimp only at h
                      cases hci : cronIntervalOvMs minute hour dayOfMonth
                          month dayOfWeek with
                      | error e2 =>
                          rw [hci] at h
                          dsimp only at h
                          injection h with h2
                          exact ⟨minute, hour, dayOfMonth, month,
                            dayOfWeek, rest, rfl, Or.inl (h2 ▸ hci)⟩
                      | ok i =>
                          rw [hci] at h
                          dsimp only at h
                          exact ⟨minute, hour, dayOfMonth, month,
                            dayOfWeek, rest, rfl, Or.inr ⟨i, hci, h⟩⟩

/-- C8 (amended): the projector raises in exactly two families of
situations and silently degrades everywhere else.  Silent degradation
(with the horizon sum of line 261 representable): a missing or
unparseable `at` timestamp, a cron expression with fewer than five
fields, and an empty or unrecognized schedule all yield the empty list
with no error.  Raising: a `ValueError` escapes only when a cron minute
field starting with `*/` has a non-integer remainder and the heuristic
consults it (hour field `*` or containing `-`); an `OverflowError`
escapes only from `datetime` or `timedelta` arithmetic leaving its
range — the horizon sum of line 261, an `every` period or an inferred
`*/N` cron step beyond the `timedelta` range, or a stepping sum of
line 290 or 338 beyond the `datetime` range. -/
theorem c8_error_surface (fuel : Nat) (schedule : Option Schedule)
    (firstRun now : Int) :
    (dtOk (now + horizonMs) → ∀ s, schedule = some s → s.kind = "at" →
      s.atTime = none →
      calculate_next_runs_from_schedule_ov fuel schedule firstRun now =
        PyResultE.ok []) ∧
    (dtOk (now + horizonMs) → ∀ s, schedule = some s → s.kind = "cron" →
      (pySplit s.expr).length < 5 →
      calculate_next_runs_from_schedule_ov fuel schedule firstRun now =
        PyResultE.ok []) ∧
    (dtOk (now + horizonMs) →
      (schedule = none ∨ ∃ s, schedule = some s ∧ s.kind ≠ "at" ∧
        s.kind ≠ "every" ∧ s.kind ≠ "cron") →
      calculate_next_runs_from_schedule_ov fuel schedule firstRun now =
        PyResultE.ok []) ∧
    (calculate_next_runs_from_schedule_ov fuel schedule firstRun now =
        PyResultE.raised PyErr.valueError →
      ∃ s minute hour dayOfMonth month dayOfWeek rest,
        schedule = some s ∧ s.kind = "cron" ∧
        pySplit s.expr =
          minute :: hour :: dayOfMonth :: month :: dayOfWeek :: rest ∧
        pyStartsWith minute "*/" ∧
        (hour = "*" ∨ pyContainsChar hour '-') ∧
        pyInt (pyDrop minute 2) = none) ∧
    (calculate_next_runs_from_schedule_ov fuel schedule firstRun now =
        PyResultE.raised PyErr.overflowError →
      ¬ dtOk (now + horizonMs) ∨
      (∃ s, schedule = some s ∧ s.kind = "every" ∧ 0 < s.everyMs ∧
        ¬ tdOk s.everyMs) ∨
      (∃ s minute hour dayOfMonth month dayOfWeek rest n,
        schedule = some s ∧ s.kind = "cron" ∧
        pySplit s.expr =
          minute :: hour :: dayOfMonth :: month :: dayOfWeek :: rest ∧
        pyStartsWith minute "*/" ∧
        (hour = "*" ∨ pyContainsChar hour '-') ∧
        pyInt (pyDrop minute 2) = some n ∧ ¬ tdOk (n * 60000)) ∨
      (∃ s i, schedule = some s ∧
        ((s.kind = "every" ∧ i = s.everyMs ∧
          everyLoopOvRuns now (now + horizonMs) i fuel firstRun [] =
            PyResultE.raised PyErr.overflowError) ∨
         (s.kind = "cron" ∧
          cronLoopOvRuns now (now + horizonMs) i fuel firstRun [] =
            PyResultE.raised PyErr.overflowError)))) := by
  refine ⟨?_, ?_, ?_, ?_, ?_⟩
  · intro hdt s hs hk hat
    rw [hs, calcOv_at_eq fuel s firstRun now hdt hk, hat]
  · intro hdt s hs hk hlen
    rw [hs]
    exact calcOv_cron_short_eq fuel s firstRun now hdt hk hlen
  · intro hdt hcase
    rcases hcase with h | ⟨s, hs, h1, h2, h3⟩
    · rw [h]
      exact calcOv_none_eq fuel firstRun now hdt
    · rw [hs]
      exact calcOv_other_eq fuel s firstRun now hdt h1 h2 h3
  · intro h
    by_cases hdt : dtOk (now + horizonMs)
    · cases schedule with
      | none =>
          rw [calcOv_none_eq fuel firstRun now hdt] at h
          exact absurd h (by simp)
      | some s =>
          by_cases hat : s.kind = "at"
          · rw [calcOv_at_eq fuel s firstRun now hdt hat] at h
            exact absurd h (by simp)
          · by_cases hev : s.kind = "every"
            · rcases calcOv_every_raised_inv fuel s firstRun now _ hdt
                hev h with ⟨_, _, habs⟩ | ⟨_, _, hloop⟩
              · exact absurd habs (by simp)
              · exact absurd hloop
                  (everyLoopOvRuns_ne_valueError _ _ _ fuel _ _)
            · by_cases hcr : s.kind = "cron"
              · obtain ⟨minute, hour, dayOfMonth, month, dayOfWeek, rest,
                  hsp, hcase2⟩ :=
                    calcOv_cron_raised_inv fuel s firstRun now _ hdt hcr h
                rcases hcase2 with hci | ⟨i, hci, hloop⟩
                · obtain ⟨h1, h2, h3⟩ :=
                    cronIntervalOvMs_valueError_inv minute hour dayOfMonth
                      month dayOfWeek hci
                  exact ⟨s, minute, hour, dayOfMonth, month, dayOfWeek,
                    rest, rfl, hcr, hsp, h1, h2, h3⟩
                · exact absurd hloop
                    (cronLoopOvRuns_ne_valueError _ _ _ fuel _ _)
              · rw [calcOv_other_eq fuel s firstRun now hdt hat hev hcr]
                  at h
                exact absurd h (by simp)
    · rw [calcOv_noHorizon_eq fuel schedule firstRun now hdt] at h
      injection h with h2
      exact absurd h2 (by simp)
  · intro h
    by_cases hdt : dtOk (now + horizonMs)
    · cases schedule with
      | none =>
          rw [calcOv_none_eq fuel firstRun now hdt] at h
          exact absurd h (by simp)
      | some s =>
          by_cases hat : s.kind = "at"
          · rw [calcOv_at_eq fuel s firstRun now hdt hat] at h
            exact absurd h (by simp)
          · by_cases hev : s.kind = "every"
            · rcases calcOv_every_raised_inv fuel s firstRun now _ hdt
                hev h with ⟨hpos, htd, _⟩ | ⟨hpos, htd, hloop⟩
              · exact Or.inr (Or.inl ⟨s, rfl, hev, hpos, htd⟩)
              · exact Or.inr (Or.inr (Or.inr ⟨s, s.everyMs, rfl,
                  Or.inl ⟨hev, rfl, hloop⟩⟩))
            · by_cases hcr : s.kind = "cron"
              · obtain ⟨minute, hour, dayOfMonth, month, dayOfWeek, rest,
                  hsp, hcase2⟩ :=
                    calcOv_cron_raised_inv fuel s firstRun now _ hdt hcr h
                rcases hcase2 with hci | ⟨i, hci, hloop⟩
                · obtain ⟨h1, h2, n, h3, h4⟩ :=
                    cronIntervalOvMs_overflow_inv minute hour dayOfMonth
                      month dayOfWeek hci
                  exact Or.inr (Or.inr (Or.inl ⟨s, minute, hour,
                    dayOfMonth, month, dayOfWeek, rest, n, rfl, hcr, hsp,
                    h1, h2, h3, h4⟩))
                · exact Or.inr (Or.inr (Or.inr ⟨s, i, rfl,
                    Or.inr ⟨hcr, hloop⟩⟩))
              · rw [calcOv_other_eq fuel s firstRun now hdt hat hev hcr]
                  at h
                exact absurd h (by simp)
    · exact Or.inl hdt

/-- Witness for the error-surface theorem: an `at` schedule whose raw
timestamp failed to parse (`atTime = none`) silently yields no
occurrences rather than an error. -/
theorem c8_error_surface_witness :
    calculate_next_runs_from_schedule_ov 0 (some ⟨"at", none, 0, ""⟩) 0 0
      = PyResultE.ok [] :=
  (c8_error_surface 0 (some ⟨"at", none, 0, ""⟩) 0 0).1 (by decide)
    ⟨"at", none, 0, ""⟩ rfl rfl rfl

/-- Sample of the refined raise behaviour: an `every` schedule with a
huge but `timedelta`-representable period (about 9500 years) steps past
`datetime.max` on the first addition of line 290 and raises
`OverflowError` from a well-formed input. -/
theorem calcOv_overflow_sample_every :
    calculate_next_runs_from_schedule_ov 10
        (some ⟨"every", none, 300000000000000, ""⟩) 1770000000000
        1770000000000 = PyResultE.raised PyErr.overflowError := by decide

/-- Sample of the refined raise behaviour: a cron minute field with an
integer remainder of 300000000000 infers a representable interval, and
the stepping sum of line 338 then raises `OverflowError`. -/
theorem calcOv_overflow_sample_cron :
    calculate_next_runs_from_schedule_ov 10
        (some ⟨"cron", none, 0, "*/300000000000 * * * *"⟩) 1770000000000
        1770000000000 = PyResultE.raised PyErr.overflowError := by decide
